import Mathlib

/-!
Verification of core behaviors of the `project-init-tools` repository
(idempotent tool installers, privilege-escalation wrapper, batched OS
package lists, atomic install commit, version comparison).

Each Python function referenced by a claim is shallowly embedded as an
executable Lean definition that mirrors the source control flow.  Side
effects are made explicit: filesystem state, OS group databases and
external process results are passed as explicit values; Python
exceptions become `Except` results.
-/

deriving instance DecidableEq for Except

namespace ProjectInitTools

/-! ## VersionComparator (`util.check_version_ge`)

`check_version_ge(v1, v2)` in `util.py` is
`packaging.version.parse(v1) >= packaging.version.parse(v2)`.
`packaging` is a third-party library (not part of this repository), so
its behavior on the domain of plain dotted-numeric release versions is
modelled here: a version string splits on `.` into decimal segments;
comparison uses the PEP 440 comparison key, which is the tuple of
segments with trailing zero segments removed, compared
lexicographically (so `"1.2"` and `"1.2.0"` have the same key).
An empty or non-numeric string fails to parse (`InvalidVersion`).
-/

/-- Splits a character list on `'.'` boundaries (models `str.split('.')`
as used by version parsing on dotted release strings). -/
def splitOnDot : List Char → List (List Char)
  | [] => [[]]
  | c :: cs =>
    let r := splitOnDot cs
    if c = '.' then [] :: r
    else
      match r with
      | [] => [[c]]
      | seg :: rest => (c :: seg) :: rest

/-- Parses one dotted segment as a decimal number; a segment that is
empty or contains a non-digit is invalid. -/
def segToNat (cs : List Char) : Option Nat :=
  if cs ≠ [] ∧ cs.all Char.isDigit then
    some (cs.foldl (fun n c => n * 10 + (c.toNat - 48)) 0)
  else none

/-- Modelled from `packaging.version.parse` (external library used by
`util.check_version_ge`), restricted to plain dotted-numeric release
versions: the list of numeric segments, or `none` on a malformed
(e.g. empty) string. -/
def parse_version (s : String) : Option (List Nat) :=
  (splitOnDot s.data).mapM segToNat

/-- Removes trailing zero segments, as `packaging`'s comparison key does
for the release tuple. -/
def strip_trailing_zeros (l : List Nat) : List Nat :=
  (l.reverse.dropWhile (· == 0)).reverse

/-- Python tuple `<=` on lists of naturals (lexicographic). -/
def tupLe : List Nat → List Nat → Bool
  | [], _ => true
  | _ :: _, [] => false
  | a :: as, b :: bs => decide (a < b) || (decide (a = b) && tupLe as bs)

/-- The PEP 440 comparison key of a release version string. -/
def version_key (s : String) : Option (List Nat) :=
  (parse_version s).map strip_trailing_zeros

/-- `util.check_version_ge(version1, version2)`: true iff `version1 >=
version2` under the modelled `packaging` ordering; `none` when either
string fails to parse (Python raises `InvalidVersion`). -/
def check_version_ge (version1 version2 : String) : Option Bool := do
  let k1 ← version_key version1
  let k2 ← version_key version2
  pure (tupLe k2 k1)

theorem tupLe_trans (a : List Nat) :
    ∀ b c, tupLe a b = true → tupLe b c = true → tupLe a c = true := by
  induction a with
  | nil => intro b c _ _; rfl
  | cons x xs ih =>
    intro b c hab hbc
    cases b with
    | nil => simp [tupLe] at hab
    | cons y ys =>
      cases c with
      | nil => simp [tupLe] at hbc
      | cons z zs =>
        simp only [tupLe, Bool.or_eq_true, Bool.and_eq_true,
          decide_eq_true_eq] at hab hbc ⊢
        rcases hab with h1 | ⟨he1, ht1⟩ <;> rcases hbc with h2 | ⟨he2, ht2⟩
        · exact Or.inl (h1.trans h2)
        · exact Or.inl (he2 ▸ h1)
        · exact Or.inl (he1 ▸ h2)
        · exact Or.inr ⟨he1.trans he2, ih ys zs ht1 ht2⟩

theorem tupLe_total (a : List Nat) :
    ∀ b, tupLe a b = true ∨ tupLe b a = true := by
  induction a with
  | nil => intro b; exact Or.inl rfl
  | cons x xs ih =>
    intro b
    cases b with
    | nil => exact Or.inr rfl
    | cons y ys =>
      simp only [tupLe, Bool.or_eq_true, Bool.and_eq_true, decide_eq_true_eq]
      rcases Nat.lt_trichotomy x y with h | h | h
      · exact Or.inl (Or.inl h)
      · rcases ih ys with h2 | h2
        · exact Or.inl (Or.inr ⟨h, h2⟩)
        · exact Or.inr (Or.inr ⟨h.symm, h2⟩)
      · exact Or.inr (Or.inl h)

/-- C8: `check_version_ge` is (on strings that parse) a total order
consistent with numeric segment comparison: `ge` is transitive and
total, `ge("2.4.23","2.4.9")` holds because segments compare
numerically, and a missing trailing segment counts as zero, so
`"1.2"` and `"1.2.0"` compare equal (each `ge` the other). -/
theorem check_version_ge_total_order :
    (∀ a b c : String, check_version_ge a b = some true →
      check_version_ge b c = some true → check_version_ge a c = some true) ∧
    (∀ a b : String, ∀ ka kb, version_key a = some ka → version_key b = some kb →
      check_version_ge a b = some true ∨ check_version_ge b a = some true) ∧
    check_version_ge "2.4.23" "2.4.9" = some true ∧
    check_version_ge "1.2" "1.2.0" = some true ∧
    check_version_ge "1.2.0" "1.2" = some true := by
  refine ⟨?_, ?_, by decide, by decide, by decide⟩
  · intro a b c hab hbc
    simp only [check_version_ge, Option.bind_eq_bind, bind, Option.bind] at hab hbc ⊢
    cases hka : version_key a with
    | none => rw [hka] at hab; simp at hab
    | some ka =>
      cases hkb : version_key b with
      | none => rw [hka, hkb] at hab; simp at hab
      | some kb =>
        cases hkc : version_key c with
        | none => rw [hkb, hkc] at hbc; simp at hbc
        | some kc =>
          rw [hka, hkb] at hab
          rw [hkb, hkc] at hbc
          simp only [pure, Option.some_inj] at hab hbc ⊢
          exact tupLe_trans kc kb ka hbc hab
  · intro a b ka kb hka hkb
    simp only [check_version_ge, Option.bind_eq_bind, bind, Option.bind, hka, hkb]
    rcases tupLe_total kb ka with h | h
    · exact Or.inl (by simp [pure, h])
    · exact Or.inr (by simp [pure, h])

/-- Witness: instantiates the transitivity and totality clauses at
concrete version strings. -/
theorem check_version_ge_total_order_witness :
    check_version_ge "2.4.23" "1.2" = some true ∧
    (check_version_ge "3.1" "0.9" = some true ∨
      check_version_ge "0.9" "3.1" = some true) := by
  constructor
  · exact check_version_ge_total_order.1 "2.4.23" "2.4.9" "1.2"
      (by decide) (by decide)
  · exact check_version_ge_total_order.2.1 "3.1" "0.9" [3, 1] [0, 9]
      (by decide) (by decide)

/-! ## `util.run_once`

The `run_once` decorator wraps a function with a `_RunOnceState`
(`has_run : bool`, `result`); the wrapper computes `func(*args)` and
stores it on the first call, and returns the stored result (ignoring
its arguments) thereafter.  The state is threaded explicitly here; the
lock (which only serializes the first computation) is immaterial in
this single-threaded model.
-/

/-- The `_RunOnceState` held in the decorator's closure:
`has_run` starts `False` and `result` starts `None`. -/
structure _RunOnceState (β : Type) where
  has_run : Bool
  result : Option β
  deriving DecidableEq

/-- One call of the decorated function `_run_once(*args)`: if the state
says the function has run, return the stored result; otherwise invoke
the underlying `func`, store its result, and return it.  Also reports
how many times the underlying `func` was invoked by this call. -/
def run_once_call {α β : Type} (func : α → β) (state : _RunOnceState β)
    (a : α) : Option β × _RunOnceState β × Nat :=
  if state.has_run then (state.result, state, 0)
  else (some (func a), ⟨true, some (func a)⟩, 1)

/-- A sequence of calls of the decorated function, returning the list
of results, the final state, and the total number of invocations of the
underlying `func`. -/
def run_once_calls {α β : Type} (func : α → β) (state : _RunOnceState β) :
    List α → List (Option β) × _RunOnceState β × Nat
  | [] => ([], state, 0)
  | a :: as =>
    let (r, state', n) := run_once_call func state a
    let (rs, state'', m) := run_once_calls func state' as
    (r :: rs, state'', n + m)

theorem run_once_calls_has_run {α β : Type} (func : α → β) (r : β) :
    ∀ l : List α, run_once_calls func ⟨true, some r⟩ l =
      (l.map (fun _ => some r), ⟨true, some r⟩, 0) := by
  intro l
  induction l with
  | nil => rfl
  | cons a as ih => simp [run_once_calls, run_once_call, ih]

/-- C10: for any sequence of calls of a `run_once`-decorated function,
the underlying function is invoked exactly once (on the first call's
argument), and every call — whatever its own arguments — returns the
result of that first invocation. -/
theorem run_once_invokes_once {α β : Type} (func : α → β) (a : α) (as : List α) :
    (run_once_calls func ⟨false, none⟩ (a :: as)).1
        = (a :: as).map (fun _ => some (func a)) ∧
    (run_once_calls func ⟨false, none⟩ (a :: as)).2.2 = 1 ∧
    (run_once_calls func ⟨false, none⟩ (a :: as)).2.1 = ⟨true, some (func a)⟩ := by
  simp [run_once_calls, run_once_call, run_once_calls_has_run]

/-! ## PrivilegeDecision (`util._sudo_fix_args`, `util.should_run_with_group`)

The OS environment read by these functions (effective uid, login user,
the `grp` group database, the process's supplementary group ids) is
passed as an explicit `SysEnv` record.  Python's `sorted` on strings
(used by `get_os_groups_of_user` / `get_os_groups_of_current_process`)
is modelled by a stable insertion sort under code-point order.
`ProjectInitError` and `CalledProcessErrorWithStderrMessage` become
constructors of an explicit error type.
-/

/-- Lexicographic code-point `<` on character lists (Python `str.__lt__`). -/
def charListLt : List Char → List Char → Bool
  | [], [] => false
  | [], _ :: _ => true
  | _ :: _, [] => false
  | c :: cs, d :: ds =>
    decide (c.toNat < d.toNat) || (decide (c = d) && charListLt cs ds)

/-- Python string `<` by code points. -/
def pyStrLt (a b : String) : Bool := charListLt a.data b.data

/-- Inserts a string into an already sorted list, before the first
element it is not greater than (stable). -/
def insertStr (a : String) : List String → List String
  | [] => [a]
  | x :: xs => if pyStrLt x a then x :: insertStr a xs else a :: x :: xs

/-- Python `sorted` on a list of strings (stable, ascending by code
point). -/
def pySorted : List String → List String
  | [] => []
  | x :: xs => insertStr x (pySorted xs)

theorem mem_insertStr (a x : String) (l : List String) :
    x ∈ insertStr a l ↔ x = a ∨ x ∈ l := by
  induction l with
  | nil => simp [insertStr]
  | cons y ys ih =>
    simp only [insertStr]
    split
    · simp [ih]; tauto
    · simp

theorem mem_pySorted (x : String) (l : List String) :
    x ∈ pySorted l ↔ x ∈ l := by
  induction l with
  | nil => simp [pySorted]
  | cons y ys ih => simp [pySorted, mem_insertStr, ih]

/-- One entry of the `grp` group database. -/
structure GroupEntry where
  gr_name : String
  gr_gid : Nat
  gr_mem : List String
  deriving DecidableEq

/-- The OS state read by the privilege-decision functions. -/
structure SysEnv where
  euid : Nat
  login_user : String
  groups : List GroupEntry
  process_gids : List Nat
  deriving DecidableEq

/-- Errors raised by the embedded functions. `projectInitError` models
`ProjectInitError`; `calledProcessError` models
`CalledProcessErrorWithStderrMessage`; `invalidVersion` models
`packaging.version.InvalidVersion`. -/
inductive PyError where
  | projectInitError (msg : String)
  | calledProcessError (returncode : Int) (cmd : List String)
      (stderr : String) (output : String)
  | invalidVersion
  deriving DecidableEq

/-- `util.running_as_root`: `os.geteuid() == 0`. -/
def running_as_root (env : SysEnv) : Bool := env.euid == 0

/-- `util.get_current_os_user`: `os.getlogin()`. -/
def get_current_os_user (env : SysEnv) : String := env.login_user

/-- `util.os_group_exists`: `grp.getgrnam` succeeds for the name. -/
def os_group_exists (env : SysEnv) (group_name : String) : Bool :=
  env.groups.any (fun e => e.gr_name == group_name)

/-- `util.get_os_groups_of_user` (for the current user): names of
groups whose member list contains the user, sorted. -/
def get_os_groups_of_user (env : SysEnv) : List String :=
  pySorted ((env.groups.filter
    (fun e => e.gr_mem.contains env.login_user)).map GroupEntry.gr_name)

/-- `util.get_os_groups_of_current_process`: names of groups whose gid
is among `os.getgroups()`, sorted. -/
def get_os_groups_of_current_process (env : SysEnv) : List String :=
  pySorted ((env.groups.filter
    (fun e => env.process_gids.contains e.gr_gid)).map GroupEntry.gr_name)

/-- `util.os_group_includes_user` (for the current user). -/
def os_group_includes_user (env : SysEnv) (group_name : String) : Bool :=
  (get_os_groups_of_user env).contains group_name

/-- `util.os_group_includes_current_process`. -/
def os_group_includes_current_process (env : SysEnv) (group_name : String) : Bool :=
  (get_os_groups_of_current_process env).contains group_name

/-- `util.should_run_with_group(group_name, require)`: true when the
user account is in the group but the running process is not.  With
`require` set, a missing group or a user not in the group raises
`ProjectInitError`. -/
def should_run_with_group (env : SysEnv) (group_name : String)
    (require : Bool) : Except PyError Bool :=
  if require then
    if !os_group_includes_user env group_name then
      if os_group_exists env group_name then
        .error (.projectInitError ("User \"" ++ get_current_os_user env ++
          "\" is not a member of OS group \"" ++ group_name ++ "\""))
      else
        .error (.projectInitError ("OS group \"" ++ group_name ++
          "\" does not exist"))
    else
      .ok (!os_group_includes_current_process env group_name)
  else
    .ok (!os_group_includes_current_process env group_name &&
      os_group_includes_user env group_name)

/-- `util._sudo_fix_args` for an argument list (the `shell=False`,
`args : list` case).  `need_group` is computed first (Python evaluates
`should_run_with_group(run_with_group)` — with its default
`require=True` — only when `run_with_group` is not `None`, and any
exception propagates); then `sudo` (plus `-E -u <user>` in the group
case) is prepended when `need_group or (use_sudo and not is_root)`.
The `sudo_warn` call only writes a one-time message to stderr and is
not modelled. -/
def _sudo_fix_args (env : SysEnv) (args : List String) (use_sudo : Bool)
    (run_with_group : Option String) : Except PyError (List String) := do
  let need_group ← match run_with_group with
    | Option.none => pure false
    | some g => should_run_with_group env g true
  let is_root := running_as_root env
  if need_group || (use_sudo && !is_root) then
    pure (["sudo"] ++
      (if need_group then ["-E", "-u", get_current_os_user env] else []) ++ args)
  else
    pure args

/-- Root environment in which the login user has been added to group
`"docker"` in the group database, but the running process's group list
predates that membership. -/
def rootStaleGroupEnv : SysEnv :=
  ⟨0, "u", [⟨"docker", 999, ["u"]⟩], []⟩

/-- C3 counterexample: with an effective uid of 0 (root), supplying
`run_with_group = "docker"` in `rootStaleGroupEnv` still prepends
`sudo -E -u u`, so the argument list is not returned unchanged. -/
theorem sudo_fix_args_root_group_changes_args :
    _sudo_fix_args rootStaleGroupEnv ["apt-get", "update"] false (some "docker")
      ≠ Except.ok ["apt-get", "update"] := by decide

/-- C3 (amended): when the effective user is root, `_sudo_fix_args`
returns the argument list unchanged regardless of `use_sudo`, provided
no group re-execution is needed: either `run_with_group` is absent, or
`should_run_with_group` reports that the process's group list is
already current. -/
theorem sudo_fix_args_root_unchanged (env : SysEnv) (args : List String)
    (use_sudo : Bool) (run_with_group : Option String)
    (hroot : running_as_root env = true)
    (hgroup : run_with_group = Option.none ∨
      ∃ g, run_with_group = some g ∧ should_run_with_group env g true = .ok false) :
    _sudo_fix_args env args use_sudo run_with_group = .ok args := by
  rcases hgroup with h | ⟨g, hg, hok⟩
  · subst h
    simp [_sudo_fix_args, hroot, pure, Except.pure, bind, Except.bind]
  · subst hg
    simp [_sudo_fix_args, hroot, hok, pure, Except.pure, bind, Except.bind]

/-- Witness for the amended C3: a concrete root environment where the
process already has the group, with and without `run_with_group`. -/
theorem sudo_fix_args_root_unchanged_witness :
    _sudo_fix_args ⟨0, "u", [⟨"docker", 999, ["u"]⟩], [999]⟩
      ["apt-get", "update"] true (some "docker") = .ok ["apt-get", "update"] :=
  sudo_fix_args_root_unchanged _ _ true (some "docker") (by decide)
    (Or.inr ⟨"docker", rfl, by decide⟩)

/-- C5: requesting group-based elevation for a group that is absent
from the OS group database makes `_sudo_fix_args` fail with the fatal
`ProjectInitError` "OS group … does not exist" (raised inside
`should_run_with_group` with `require=True`); the privilege decision
never proceeds. -/
theorem sudo_fix_args_missing_group_fatal (env : SysEnv) (args : List String)
    (use_sudo : Bool) (g : String)
    (hmissing : os_group_exists env g = false) :
    _sudo_fix_args env args use_sudo (some g) =
      .error (.projectInitError ("OS group \"" ++ g ++ "\" does not exist")) := by
  have huser : os_group_includes_user env g = false := by
    rw [os_group_includes_user, Bool.eq_false_iff]
    intro hcontains
    have hmem : g ∈ get_os_groups_of_user env := by simpa using hcontains
    simp only [get_os_groups_of_user, mem_pySorted] at hmem
    rcases List.mem_map.mp hmem with ⟨e, hmeme, hname⟩
    rw [os_group_exists, Bool.eq_false_iff] at hmissing
    exact hmissing (List.any_eq_true.mpr
      ⟨e, List.mem_filter.mp hmeme |>.1, by simp [hname]⟩)
  simp [_sudo_fix_args, should_run_with_group, huser, hmissing, bind, Except.bind]

/-- Witness: a concrete environment with no "docker" group. -/
theorem sudo_fix_args_missing_group_fatal_witness :
    _sudo_fix_args ⟨1000, "u", [⟨"users", 100, ["u"]⟩], [100]⟩
      ["docker", "ps"] false (some "docker") =
      .error (.projectInitError "OS group \"docker\" does not exist") :=
  sudo_fix_args_missing_group_fatal _ _ false "docker" (by decide)

/-! ## CommandRunner (`util.sudo_check_output_stderr_exception`)

The external process is abstracted as a function from the (possibly
sudo-rewritten) argument list to an exit code plus captured stdout and
stderr text (the function always launches the child with
`stdout=subprocess.PIPE, stderr=subprocess.PIPE`).  Text mode is
assumed, so the captured streams are strings.
-/

/-- Result of `proc.communicate()` plus `proc.returncode` for one
process invocation. -/
structure ProcResult where
  exitCode : Int
  stdoutText : String
  stderrText : String
  deriving DecidableEq

/-- Python `str.rstrip()`: removes trailing whitespace. -/
def pyRstrip (s : String) : String :=
  ((s.data.reverse.dropWhile Char.isWhitespace).reverse).asString

/-- Modelled from the Python standard library
`subprocess.CalledProcessError.__str__` (external to this repository),
with the command list shown space-separated in place of Python `%r`
formatting: the message names the command and the exit status (or the
signal, for a negative return code) — it does not itself contain the
stderr text. -/
def calledProcessError_super_str (returncode : Int) (cmd : List String) : String :=
  if returncode < 0 then
    "Command '" ++ String.intercalate " " cmd ++ "' died with signal " ++
      toString (-returncode) ++ "."
  else
    "Command '" ++ String.intercalate " " cmd ++
      "' returned non-zero exit status " ++ toString returncode ++ "."

/-- `exceptions.CalledProcessErrorWithStderrMessage.__str__`: the base
`CalledProcessError` message followed by `": [<stderr>]"`. -/
def calledProcessErrorWithStderrMessage_str (returncode : Int)
    (cmd : List String) (stderr : String) : String :=
  calledProcessError_super_str returncode cmd ++ ": [" ++ stderr ++ "]"

/-- `util.sudo_check_output_stderr_exception`: rewrites the command via
`_sudo_fix_args`, runs it with both streams captured, and on a nonzero
exit code raises `CalledProcessErrorWithStderrMessage` carrying the exit
code, the rewritten command, the captured stderr with trailing
whitespace stripped, and the captured stdout; on exit code 0 it returns
the captured stdout. -/
def sudo_check_output_stderr_exception (env : SysEnv) (args : List String)
    (use_sudo : Bool) (run_with_group : Option String)
    (runProc : List String → ProcResult) : Except PyError String := do
  let args' ← _sudo_fix_args env args use_sudo run_with_group
  let r := runProc args'
  if r.exitCode ≠ 0 then
    .error (.calledProcessError r.exitCode args' (pyRstrip r.stderrText)
      r.stdoutText)
  else
    .ok r.stdoutText

/-- C4: `sudo_check_output_stderr_exception` raises iff the external
command exits nonzero; the raised error carries the exit code, the
sudo-rewritten command, and the captured stderr trimmed of trailing
whitespace, and its message string contains that trimmed stderr text
verbatim; a zero exit returns the captured stdout and raises nothing. -/
theorem sudo_check_output_raises_iff_nonzero (env : SysEnv)
    (args : List String) (use_sudo : Bool) (run_with_group : Option String)
    (runProc : List String → ProcResult) (args' : List String) (r : ProcResult)
    (hfix : _sudo_fix_args env args use_sudo run_with_group = .ok args')
    (hrun : runProc args' = r) :
    ((∃ e, sudo_check_output_stderr_exception env args use_sudo run_with_group
        runProc = .error e) ↔ r.exitCode ≠ 0) ∧
    (r.exitCode ≠ 0 →
      sudo_check_output_stderr_exception env args use_sudo run_with_group runProc
        = .error (.calledProcessError r.exitCode args' (pyRstrip r.stderrText)
            r.stdoutText) ∧
      ∃ pre post,
        calledProcessErrorWithStderrMessage_str r.exitCode args'
            (pyRstrip r.stderrText)
          = pre ++ pyRstrip r.stderrText ++ post) ∧
    (r.exitCode = 0 →
      sudo_check_output_stderr_exception env args use_sudo run_with_group runProc
        = .ok r.stdoutText) := by
  have hbody : sudo_check_output_stderr_exception env args use_sudo
      run_with_group runProc =
      (if r.exitCode ≠ 0 then
        .error (.calledProcessError r.exitCode args' (pyRstrip r.stderrText)
          r.stdoutText)
      else .ok r.stdoutText) := by
    simp [sudo_check_output_stderr_exception, hfix, hrun, bind, Except.bind]
  refine ⟨?_, ?_, ?_⟩
  · constructor
    · rintro ⟨e, he⟩
      by_contra hzero
      rw [hbody] at he
      simp [hzero] at he
    · intro hnz
      rw [hbody]
      simp [hnz]
  · intro hnz
    refine ⟨by rw [hbody]; simp [hnz], ?_⟩
    exact ⟨calledProcessError_super_str r.exitCode args' ++ ": [", "]", by
      simp [calledProcessErrorWithStderrMessage_str, String.append_assoc]⟩
  · intro hz
    rw [hbody]
    simp [hz]

/-- Witness: a concrete failing command (exit code 1, stderr
`"boom\n"`) raises the error carrying `"boom"`, and a concrete
succeeding command returns its stdout. -/
theorem sudo_check_output_raises_iff_nonzero_witness :
    sudo_check_output_stderr_exception ⟨1000, "u", [], []⟩ ["x"] false
        Option.none (fun _ => ⟨1, "out", "boom\n"⟩)
      = .error (.calledProcessError 1 ["x"] (pyRstrip "boom\n") "out") ∧
    sudo_check_output_stderr_exception ⟨1000, "u", [], []⟩ ["x"] false
        Option.none (fun _ => ⟨0, "out", ""⟩)
      = .ok "out" := by
  constructor
  · exact ((sudo_check_output_raises_iff_nonzero ⟨1000, "u", [], []⟩ ["x"] false
      Option.none (fun _ => ⟨1, "out", "boom\n"⟩) ["x"] ⟨1, "out", "boom\n"⟩
      (by decide) rfl).2.1 (by decide)).1
  · exact (sudo_check_output_raises_iff_nonzero ⟨1000, "u", [], []⟩ ["x"] false
      Option.none (fun _ => ⟨0, "out", ""⟩) ["x"] ⟨0, "out", ""⟩
      (by decide) rfl).2.2 (by decide)

/-! ## OsPackageList (`os_packages.py`)

The package-manager state is abstracted as a predicate
`installed : String → Bool` consulted by `os_package_is_installed` at
the moment a batch operation executes.  The batch functions are
embedded as trace functions returning the list of package-manager
command lines they issue (each `sudo_check_call` is one invocation;
the sudo rewriting of those invocations is orthogonal and omitted from
the trace).  `add_packages` is modelled for the list form of its
`Union[str, List[str]]` argument.
-/

/-- `os_packages.install_os_packages`: filters out already-installed
packages, then issues a single `apt-get install -y` naming the rest
(or nothing when none remain). -/
def install_os_packages (installed : String → Bool)
    (package_names : List String) : List (List String) :=
  let filtered := package_names.filter (fun x => !installed x)
  if filtered.length > 0 then [["apt-get", "install", "-y"] ++ filtered] else []

/-- `os_packages.uninstall_os_packages`: filters to the packages that
are installed, then issues a single `apt-get remove` naming them. -/
def uninstall_os_packages (installed : String → Bool)
    (package_names : List String) : List (List String) :=
  let filtered := package_names.filter (fun x => installed x)
  if filtered.length > 0 then [["apt-get", "remove"] ++ filtered] else []

/-- `os_packages.upgrade_os_packages`: issues a single
`apt-get upgrade -y` naming every given package (no installed-ness
filtering). -/
def upgrade_os_packages (package_names : List String) : List (List String) :=
  if package_names.length > 0 then
    [["apt-get", "upgrade", "-y"] ++ package_names]
  else []

/-- `os_packages.PackageList`: the ordered list of pending package
names plus the membership set used for dedup (the Python `set` is
modelled as an unordered list queried only through `contains`). -/
structure PackageList where
  _package_names : List String
  _package_name_set : List String

/-- The body of the `add_packages` loop for one name: append the name
to the list and the set unless the set already has it. -/
def PackageList.add_one (pl : PackageList) (package_name : String) : PackageList :=
  if pl._package_name_set.contains package_name then pl
  else ⟨pl._package_names ++ [package_name], package_name :: pl._package_name_set⟩

/-- `PackageList.add_packages` for a list argument. -/
def PackageList.add_packages (pl : PackageList) (package_names : List String) :
    PackageList :=
  package_names.foldl PackageList.add_one pl

/-- `PackageList.__len__`. -/
def PackageList.pyLen (pl : PackageList) : Nat := pl._package_names.length

/-- `PackageList.__iter__`: iterates `sorted(self._package_names)`. -/
def PackageList.iterOrder (pl : PackageList) : List String :=
  pySorted pl._package_names

/-- `PackageList.is_empty`. -/
def PackageList.is_empty (pl : PackageList) : Bool :=
  pl._package_names.length == 0

/-- `PackageList.install_all`: delegates the whole pending list to
`install_os_packages` when nonempty. -/
def PackageList.install_all (installed : String → Bool) (pl : PackageList) :
    List (List String) :=
  if pl._package_names.length > 0 then
    install_os_packages installed pl._package_names
  else []

/-- `PackageList.upgrade_all`: delegates the whole pending list to
`upgrade_os_packages` when nonempty. -/
def PackageList.upgrade_all (pl : PackageList) : List (List String) :=
  if pl._package_names.length > 0 then upgrade_os_packages pl._package_names
  else []

/-- `PackageList.uninstall_all`: delegates the whole pending list to
`uninstall_os_packages` when nonempty. -/
def PackageList.uninstall_all (installed : String → Bool) (pl : PackageList) :
    List (List String) :=
  if pl._package_names.length > 0 then
    uninstall_os_packages installed pl._package_names
  else []

/-- C6 counterexample: a `PackageList` with the single pending name
`"a"` while `"a"` is already installed leads `install_all` to issue
zero package-manager invocations, not exactly one; and `upgrade_all`
passes its names to `apt-get upgrade -y` without consulting
installed-ness at all (its trace does not depend on it). -/
theorem package_list_batch_counterexample :
    (PackageList.install_all (fun _ => true) ⟨["a"], ["a"]⟩).length ≠ 1 ∧
    PackageList.upgrade_all ⟨["a"], ["a"]⟩
      = [["apt-get", "upgrade", "-y", "a"]] := by
  exact ⟨by decide, rfl⟩

/-- C6 (amended): with at least one pending name, each batch operation
issues at most one package-manager invocation (never one per package):
`install_all` and `uninstall_all` re-check installed-ness at execution
time and their single invocation lists exactly the packages still
needing the action (issuing nothing when none does), while
`upgrade_all` issues exactly one invocation listing all pending names
without re-checking installed-ness. -/
theorem package_list_batch_single_invocation (installed : String → Bool)
    (pl : PackageList) (h : pl._package_names ≠ []) :
    (PackageList.install_all installed pl).length ≤ 1 ∧
    (PackageList.uninstall_all installed pl).length ≤ 1 ∧
    PackageList.upgrade_all pl
      = [["apt-get", "upgrade", "-y"] ++ pl._package_names] ∧
    (∀ cmd ∈ PackageList.install_all installed pl,
      cmd = ["apt-get", "install", "-y"] ++
        pl._package_names.filter (fun x => !installed x)) ∧
    (∀ cmd ∈ PackageList.uninstall_all installed pl,
      cmd = ["apt-get", "remove"] ++
        pl._package_names.filter (fun x => installed x)) := by
  have hlen : pl._package_names.length > 0 := List.length_pos.mpr h
  refine ⟨?_, ?_, ?_, ?_, ?_⟩
  · rw [PackageList.install_all, if_pos hlen, install_os_packages]
    split <;> simp
  · rw [PackageList.uninstall_all, if_pos hlen, uninstall_os_packages]
    split <;> simp
  · rw [PackageList.upgrade_all, if_pos hlen, upgrade_os_packages, if_pos hlen]
  · intro cmd hcmd
    rw [PackageList.install_all, if_pos hlen, install_os_packages] at hcmd
    split at hcmd
    · simpa using hcmd
    · simp at hcmd
  · intro cmd hcmd
    rw [PackageList.uninstall_all, if_pos hlen, uninstall_os_packages] at hcmd
    split at hcmd
    · simpa using hcmd
    · simp at hcmd

/-- Witness: the amended C6 at a concrete list `["a", "b"]` with `"a"`
installed and `"b"` not. -/
theorem package_list_batch_single_invocation_witness :
    (PackageList.install_all (fun x => x == "a") ⟨["a", "b"], ["b", "a"]⟩).length ≤ 1 ∧
    PackageList.upgrade_all ⟨["a", "b"], ["b", "a"]⟩
      = [["apt-get", "upgrade", "-y", "a", "b"]] := by
  have h := package_list_batch_single_invocation (fun x => x == "a")
    ⟨["a", "b"], ["b", "a"]⟩ (by decide)
  exact ⟨h.1, h.2.2.1⟩

/-- C7 counterexample: `__iter__` yields `sorted(self._package_names)`,
so after adding `["b", "a"]` iteration yields `["a", "b"]`, not the
insertion order `["b", "a"]`. -/
theorem package_list_iter_not_insertion_order :
    PackageList.iterOrder (PackageList.add_packages ⟨[], []⟩ ["b", "a"])
      ≠ ["b", "a"] := by decide

/-- Invariant tying the dedup set to the pending list: the list has no
duplicates and the set contains exactly the listed names. -/
def PackageList.wf (pl : PackageList) : Prop :=
  pl._package_names.Nodup ∧
  ∀ x, pl._package_name_set.contains x = pl._package_names.contains x

theorem PackageList.add_one_wf (pl : PackageList) (name : String)
    (h : pl.wf) : (pl.add_one name).wf ∧
      ∃ tail, (pl.add_one name)._package_names = pl._package_names ++ tail := by
  obtain ⟨hnodup, hset⟩ := h
  rw [PackageList.add_one]
  split
  · exact ⟨⟨hnodup, hset⟩, [], by simp⟩
  · rename_i hnotmem
    rw [hset] at hnotmem
    refine ⟨⟨?_, ?_⟩, [name], rfl⟩
    · simp only [List.nodup_append, List.nodup_cons]
      refine ⟨hnodup, by simp, ?_⟩
      intro a ha hb
      simp only [List.mem_singleton] at hb
      subst hb
      exact hnotmem (by simpa using ha)
    · intro x
      by_cases hx : x = name
      · subst hx
        simp [List.contains_cons]
      · have hb : (x == name) = false := beq_false_of_ne hx
        have hsx := hset x
        simp only [List.contains_cons, hb, Bool.false_or]
        simp only [List.contains, List.elem_eq_mem] at *
        simp only [List.mem_append, List.mem_singleton]
        simp [hx, decide_eq_decide] at *
        rw [hsx]

theorem PackageList.add_packages_wf (names : List String) :
    ∀ pl : PackageList, pl.wf → (pl.add_packages names).wf ∧
      ∃ tail, (pl.add_packages names)._package_names = pl._package_names ++ tail := by
  induction names with
  | nil => intro pl h; exact ⟨h, [], by simp [PackageList.add_packages]⟩
  | cons n ns ih =>
    intro pl h
    have h1 := pl.add_one_wf n h
    have h2 := ih (pl.add_one n) h1.1
    rw [PackageList.add_packages] at h2 ⊢
    simp only [List.foldl_cons]
    refine ⟨h2.1, ?_⟩
    obtain ⟨t1, ht1⟩ := h1.2
    obtain ⟨t2, ht2⟩ := h2.2
    exact ⟨t1 ++ t2, by rw [ht2, ht1, List.append_assoc]⟩

/-- C7 (amended): `add_packages` rejects duplicates with the first
occurrence winning and the internal pending list preserves insertion
order (existing entries keep their positions; new names are appended),
so `add(["a","b","a"])` yields the pending list `["a","b"]` of length 2
containing exactly `a` and `b`; iteration (`__iter__`) however yields
the names in sorted order — which for this example coincides with
insertion order, `["a","b"]`. -/
theorem package_list_dedup (pl : PackageList) (names : List String)
    (h : pl.wf) :
    ((pl.add_packages names).wf ∧
      ∃ tail, (pl.add_packages names)._package_names
        = pl._package_names ++ tail) ∧
    (PackageList.add_packages ⟨[], []⟩ ["a", "b", "a"])._package_names
      = ["a", "b"] ∧
    PackageList.pyLen (PackageList.add_packages ⟨[], []⟩ ["a", "b", "a"]) = 2 ∧
    PackageList.iterOrder (PackageList.add_packages ⟨[], []⟩ ["a", "b", "a"])
      = ["a", "b"] ∧
    (∀ x, x ∈ (PackageList.add_packages ⟨[], []⟩
        ["a", "b", "a"])._package_names ↔ x = "a" ∨ x = "b") := by
  refine ⟨PackageList.add_packages_wf names pl h, by decide, by decide,
    by decide, ?_⟩
  intro x
  show x ∈ ["a", "b"] ↔ _
  simp

/-- Witness: the general clause applied to a concrete well-formed
list. -/
theorem package_list_dedup_witness :
    (PackageList.add_packages ⟨["a"], ["a"]⟩ ["b", "a"])._package_names
      = ["a", "b"] := by
  have h := package_list_dedup ⟨["a"], ["a"]⟩ ["b", "a"]
    ⟨by simp, fun x => rfl⟩
  obtain ⟨⟨_, t, ht⟩, _⟩ := h
  rw [ht]
  have : PackageList.add_packages ⟨["a"], ["a"]⟩ ["b", "a"]
      = ⟨["a", "b"], ["b", "a"]⟩ := by rfl
  rw [this] at ht
  simp at ht
  rw [ht]
  rfl

/-! ## docker-ce upgrade retry (`installer/docker/installer.py`)

In `install_docker`, the `docker-ce` upgrade is wrapped in
`try: pl.upgrade_all() except subprocess.CalledProcessError:
pl.upgrade_all()` — one unconditional retry; the second call is not
protected.  Each `pl.upgrade_all()` call's outcome is abstracted as
`attempt n` (`n = 0` for the first call, `n = 1` for the retry).
-/

/-- The docker-ce block of `install_docker`: skip when the package list
is empty; otherwise run the upgrade, retry exactly once if it raised
`CalledProcessError`, and let any second failure (or a non-
`CalledProcessError` first failure) propagate.  Returns how many
upgrade invocations were attempted along with the outcome. -/
def install_docker_ce_upgrade (pl : PackageList)
    (attempt : Nat → Except PyError Unit) : Nat × Except PyError Unit :=
  if !pl.is_empty then
    match attempt 0 with
    | .ok _ => (1, .ok ())
    | .error (.calledProcessError _ _ _ _) =>
      match attempt 1 with
      | .ok _ => (2, .ok ())
      | .error e2 => (2, .error e2)
    | .error e => (1, .error e)
  else (0, .ok ())

/-- C9: with a nonempty docker-ce package list, a successful first
upgrade attempt ends the block after exactly one invocation; a first
failure with `CalledProcessError` triggers exactly one retry, whose
success ends the block; a second failure propagates as the error of
the second attempt; and no execution makes a third attempt. -/
theorem docker_ce_upgrade_retries_once (pl : PackageList)
    (attempt : Nat → Except PyError Unit) (h : pl.is_empty = false) :
    (attempt 0 = .ok () → install_docker_ce_upgrade pl attempt = (1, .ok ())) ∧
    (∀ rc cmd stderr out,
      attempt 0 = .error (.calledProcessError rc cmd stderr out) →
      attempt 1 = .ok () →
      install_docker_ce_upgrade pl attempt = (2, .ok ())) ∧
    (∀ rc cmd stderr out e2,
      attempt 0 = .error (.calledProcessError rc cmd stderr out) →
      attempt 1 = .error e2 →
      install_docker_ce_upgrade pl attempt = (2, .error e2)) ∧
    (install_docker_ce_upgrade pl attempt).1 ≤ 2 := by
  refine ⟨?_, ?_, ?_, ?_⟩
  · intro h0
    simp [install_docker_ce_upgrade, h, h0]
  · intro rc cmd stderr out h0 h1
    simp [install_docker_ce_upgrade, h, h0, h1]
  · intro rc cmd stderr out e2 h0 h1
    simp [install_docker_ce_upgrade, h, h0, h1]
  · rw [install_docker_ce_upgrade]
    split
    · split
      · exact Nat.le_of_lt (by omega)
      · split <;> omega
      · omega
    · omega

/-- Witness: both failing attempts at a concrete list; the second
attempt's error is what propagates, after exactly two invocations. -/
theorem docker_ce_upgrade_retries_once_witness :
    install_docker_ce_upgrade ⟨["docker-ce"], ["docker-ce"]⟩
        (fun n => .error (.calledProcessError (Int.ofNat (n + 1)) ["apt-get"]
          "err" ""))
      = (2, .error (.calledProcessError 2 ["apt-get"] "err" "")) :=
  (docker_ce_upgrade_retries_once ⟨["docker-ce"], ["docker-ce"]⟩ _
    (by decide)).2.2.1 1 ["apt-get"] "err" ""
    (.calledProcessError 2 ["apt-get"] "err" "") rfl rfl

/-! ## docker-compose Decide (`installer/docker_compose/installer.py`)

`install_docker_compose`'s decision step is embedded as a function of
the probe results: whether `docker-compose` is installed in the target
directory, the probed current version string, the caller's
`min_version` (possibly the `'latest'` sentinel, resolved against the
newest published version before comparison), and the `force` flag.
`upgrade_version` is taken as its default `None` (it only selects what
to download, plus an early `RuntimeError` validation, and is not one of
the claim's decision inputs).  The code's control flow is translated
as `install_docker_compose_decide`; the specification's ordered rules
are written separately as `decide_spec_docker_compose` and the two are
proved equal.
-/

/-- The outcome of the Decide step.  `skip` corresponds to returning
`(old_prog, False)` without downloading; the other three fall through
to `download_docker_compose` (the spec distinguishes why:
fresh install, upgrade, or forced reinstall). -/
inductive InstallDecision where
  | skip
  | install
  | upgrade
  | forceReinstall
  deriving DecidableEq

/-- The decision path of `install_docker_compose`, translated from the
code: `min_version == 'latest'` is replaced by the latest published
version up front; then, if installed: `force` short-circuits to a
forced reinstall, `min_version is None` returns early (skip), a
satisfied minimum returns early (skip), and otherwise an upgrade
proceeds; if not installed, an install proceeds.  A version string
`check_version_ge` cannot parse raises (`InvalidVersion`). -/
def install_docker_compose_decide (latest_version : String) (installed : Bool)
    (old_version : String) (min_version0 : Option String) (force : Bool) :
    Except PyError InstallDecision :=
  let min_version := if min_version0 == some "latest" then some latest_version
    else min_version0
  if installed then
    if force then .ok .forceReinstall
    else
      match min_version with
      | Option.none => .ok .skip
      | some mv =>
        match check_version_ge old_version mv with
        | Option.none => .error .invalidVersion
        | some ge => if ge then .ok .skip else .ok .upgrade
  else .ok .install

/-- The Decide rules as the specification orders them: not installed →
install; force → forced reinstall; the `'latest'` sentinel resolves to
the newest published version before comparing; no minimum → skip;
current ≥ minimum → skip; otherwise upgrade. -/
def decide_spec_docker_compose (latest_version : String) (installed : Bool)
    (old_version : String) (min_version0 : Option String) (force : Bool) :
    Except PyError InstallDecision :=
  if !installed then .ok .install
  else if force then .ok .forceReinstall
  else
    match (if min_version0 == some "latest" then some latest_version
      else min_version0) with
    | Option.none => .ok .skip
    | some mv =>
      match check_version_ge old_version mv with
      | Option.none => .error .invalidVersion
      | some true => .ok .skip
      | some false => .ok .upgrade

/-- C2: the decision step of `install_docker_compose` computes exactly
the specification's ordered rules, as a pure function of the probe
results (installed?, current version, minimum version with the
`'latest'` sentinel resolved first, force flag) — in particular the
same probe results always yield the same decision. -/
theorem install_docker_compose_decide_correct (latest_version : String)
    (installed : Bool) (old_version : String) (min_version0 : Option String)
    (force : Bool) :
    install_docker_compose_decide latest_version installed old_version
        min_version0 force
      = decide_spec_docker_compose latest_version installed old_version
        min_version0 force := by
  rw [install_docker_compose_decide, decide_spec_docker_compose]
  cases installed with
  | false => simp
  | true =>
    cases force with
    | true => simp
    | false =>
      simp only [Bool.not_true, if_false, if_true, Bool.false_eq_true]
      split
      · rfl
      · rename_i mv hmv
        cases hcv : check_version_ge old_version mv with
        | none => rfl
        | some ge => cases ge <;> rfl

/-! ## AtomicFileReplace (`installer/pulumi/installer.py`, `download_pulumi`)

The backup-and-swap sequence of `download_pulumi` (stale-backup
removal, move `<dest>` aside to `<dest>.bak`, move the staged content
into `<dest>`, delete the backup, with a best-effort restore in the
`finally` clause) is embedded as a transition function on an abstract
filesystem of the three paths involved.  Contents are labels: the
destination's pre-call content, this run's newly staged content, and a
stale leftover.  `unix_mv` is a same-volume rename: atomic, so a step
either fully happens or (on failure) changes nothing.  Each
fallible step carries an independent failure-injection flag.
-/

/-- Abstract content labels for the commit model. -/
inductive Content where
  | oldC
  | newC
  | staleC
  deriving DecidableEq, Fintype

/-- The filesystem state over the three paths `download_pulumi`
touches: `<dirname>/bin`, `<dirname>/bin.bak`, and the staged
`tmp_install_dir/pulumi/bin` (each either absent or holding some
content). -/
structure PulumiFS where
  bin_dir : Option Content
  backup_bin_dir : Option Content
  tmp_bin_dir : Option Content
  deriving DecidableEq

/-- Failure injection for each fallible step of the commit sequence. -/
structure CommitFail where
  rm_stale_backup : Bool
  mv_dest_to_backup : Bool
  mv_staged_to_dest : Bool
  rm_backup_after : Bool
  restore_mv : Bool
  deriving DecidableEq

/-- The `finally` clause with `success == False`: best-effort
`unix_mv(backup_bin_dir, bin_dir)`, with any exception swallowed (the
move can only act when the backup exists; its own failure leaves the
state unchanged).  The boolean result is `False`: the original
exception propagates. -/
def pulumi_restore (fs : PulumiFS) (fail : CommitFail) : PulumiFS × Bool :=
  if fs.backup_bin_dir.isSome && !fail.restore_mv then
    ({ fs with bin_dir := fs.backup_bin_dir, backup_bin_dir := none }, false)
  else (fs, false)

/-- The backup-and-swap sequence of `download_pulumi` (with the staged
artifact already in place), returning the final filesystem state and
whether the routine returned without raising:
1. remove a pre-existing `<dest>.bak` (outside the restore-protected
   block: a failure here propagates with no restore attempted);
2. `unix_mv(bin_dir, backup_bin_dir)` when `<dest>` exists;
3. `unix_mv(tmp_bin_dir, bin_dir)` (fails when the staged source is
   missing);
4. set `success`, then remove `<dest>.bak` if present (a failure here
   propagates, but `success` suppresses the restore);
failures of steps 2–3 run the restore clause.  The outer `finally`
removal of `tmp_install_dir` (exceptions swallowed) clears the staged
path in every outcome. -/
def download_pulumi_commit (fs0 : PulumiFS) (fail : CommitFail) :
    PulumiFS × Bool :=
  let (fs, ok) :=
    if fs0.backup_bin_dir.isSome && fail.rm_stale_backup then (fs0, false)
    else
      let fs1 : PulumiFS :=
        if fs0.backup_bin_dir.isSome then { fs0 with backup_bin_dir := none }
        else fs0
      if fs1.bin_dir.isSome && fail.mv_dest_to_backup then
        pulumi_restore fs1 fail
      else
        let fs2 : PulumiFS :=
          if fs1.bin_dir.isSome then
            { fs1 with backup_bin_dir := fs1.bin_dir, bin_dir := none }
          else fs1
        if !fs2.tmp_bin_dir.isSome || fail.mv_staged_to_dest then
          pulumi_restore fs2 fail
        else
          let fs3 : PulumiFS :=
            { fs2 with bin_dir := fs2.tmp_bin_dir, tmp_bin_dir := none }
          if fs3.backup_bin_dir.isSome && fail.rm_backup_after then (fs3, false)
          else ({ fs3 with backup_bin_dir := none }, true)
  ({ fs with tmp_bin_dir := none }, ok)

/-- C1: starting from a staged new artifact, with the destination and
any stale backup holding something other than the new content, and for
every combination of step failures: after `download_pulumi`'s commit
sequence returns, at most one of `{<dest>, <dest>.bak}` holds the new
content; and when the best-effort restore move is not itself the
failing step, `<dest>` holds either its pre-call content or the new
content — in particular `<dest>` is never missing if it existed before
the call. -/
theorem download_pulumi_commit_atomic :
    ∀ (d b : Option Content) (f1 f2 f3 f4 f5 : Bool),
      d ≠ some Content.newC → b ≠ some Content.newC →
      (¬((download_pulumi_commit ⟨d, b, some Content.newC⟩
            ⟨f1, f2, f3, f4, f5⟩).1.bin_dir = some Content.newC ∧
         (download_pulumi_commit ⟨d, b, some Content.newC⟩
            ⟨f1, f2, f3, f4, f5⟩).1.backup_bin_dir = some Content.newC)) ∧
      (f5 = false →
        ((download_pulumi_commit ⟨d, b, some Content.newC⟩
            ⟨f1, f2, f3, f4, f5⟩).1.bin_dir = d ∨
         (download_pulumi_commit ⟨d, b, some Content.newC⟩
            ⟨f1, f2, f3, f4, f5⟩).1.bin_dir = some Content.newC) ∧
        (d.isSome → ((download_pulumi_commit ⟨d, b, some Content.newC⟩
            ⟨f1, f2, f3, f4, f5⟩).1.bin_dir).isSome)) := by decide

/-- Witness: an upgrade over an existing install where the move of the
staged content into place fails: the routine raises, the backup is
restored, and the destination still holds the old content. -/
theorem download_pulumi_commit_atomic_witness :
    ¬((download_pulumi_commit ⟨some Content.oldC, none, some Content.newC⟩
          ⟨false, false, true, false, false⟩).1.bin_dir = some Content.newC ∧
      (download_pulumi_commit ⟨some Content.oldC, none, some Content.newC⟩
          ⟨false, false, true, false, false⟩).1.backup_bin_dir
        = some Content.newC) ∧
    ((download_pulumi_commit ⟨some Content.oldC, none, some Content.newC⟩
        ⟨false, false, true, false, false⟩).1.bin_dir = some Content.oldC ∨
     (download_pulumi_commit ⟨some Content.oldC, none, some Content.newC⟩
        ⟨false, false, true, false, false⟩).1.bin_dir = some Content.newC) := by
  have h := download_pulumi_commit_atomic (some Content.oldC) none
    false false true false false (by decide) (by decide)
  exact ⟨h.1, (h.2 rfl).1⟩

end ProjectInitTools
